import Mathlib

/-!
Shallow embedding of the repo-inspector fixture programs.

Source files embedded here:
  * src/tests/fixtures/complex.c   (fibonacci, print_sequence)
  * src/test_project/utils.c       (add, subtract, multiply, is_even)
  * src/test_project/math_utils.c  (square_sum, average)

Modelling conventions:
  * C `int` is modelled as `Int`, with two's-complement wrap-around made
    explicit by `wrap32` at every arithmetic operator of the source
    (the spec fixes "wrapping/overflow per platform integer semantics",
    i.e. 32-bit two's complement).
  * C `%` is truncated remainder, modelled by `Int.tmod`.
  * `double` results are modelled as exact rationals: every value the
    source produces is an at-most-33-bit integer divided by 2, and all
    such dyadic rationals are represented exactly in binary64, where
    int-to-double conversion and division by 2.0 are exact.
  * console output is modelled as the `String` the printf calls emit.
-/

namespace RepoInspector

/-- Two's-complement reduction of an unbounded integer into the range
of a 32-bit signed `int`, `[-2147483648, 2147483648)`. -/
def wrap32 (x : Int) : Int :=
  (x + 2147483648) % 4294967296 - 2147483648

/-- Embedding of `int add(int a, int b) { return a + b; }`
from src/test_project/utils.c. -/
def add (a b : Int) : Int := wrap32 (a + b)

/-- Embedding of `int subtract(int a, int b) { return a - b; }`
from src/test_project/utils.c. -/
def subtract (a b : Int) : Int := wrap32 (a - b)

/-- Embedding of `int multiply(int a, int b) { return a * b; }`
from src/test_project/utils.c. -/
def multiply (a b : Int) : Int := wrap32 (a * b)

/-- Embedding of `int is_even(int n) { return n % 2 == 0; }`
from src/test_project/utils.c.  C `%` is truncated remainder
(`Int.tmod`); the comparison result converts to `int` 1 or 0. -/
def is_even (n : Int) : Int :=
  if Int.tmod n 2 = 0 then 1 else 0

/-- Embedding of `int square_sum(int a, int b) { return a * a + b * b; }`
from src/test_project/math_utils.c: each `int` multiplication wraps,
then the `int` addition wraps. -/
def square_sum (a b : Int) : Int :=
  wrap32 (wrap32 (a * a) + wrap32 (b * b))

/-- Embedding of `double average(int a, int b) { return (a + b) / 2.0; }`
from src/test_project/math_utils.c.  `a + b` is an `int` addition (it
wraps), the sum is then converted to `double` and divided by `2.0`;
both floating-point steps are exact for every 32-bit value, so the
`double` result is modelled as the exact rational. -/
def average (a b : Int) : ℚ :=
  ((wrap32 (a + b) : Int) : ℚ) / 2

/-- Embedding of
`int fibonacci(int n) { if (n <= 1) return n; return fibonacci(n-1) + fibonacci(n-2); }`
from src/tests/fixtures/complex.c.  The `int` addition of the two
recursive results wraps. -/
def fibonacci (n : Int) : Int :=
  if n ≤ 1 then n
  else wrap32 (fibonacci (n - 1) + fibonacci (n - 2))
termination_by n.toNat
decreasing_by
· omega
· omega

/-- Embedding of
`void print_sequence(int count) { for (int i = 0; i < count; i++) printf("%d ", fibonacci(i)); }`
from src/tests/fixtures/complex.c: the loop runs for
`i = 0, …, count-1` (not at all when `count ≤ 0`), and each iteration
emits the decimal digits of `fibonacci(i)` followed by one space. -/
def print_sequence (count : Int) : String :=
  String.join ((List.range count.toNat).map
    (fun i : Nat => toString (fibonacci (i : Int)) ++ " "))

/-- Finite unfolding of the call tree of `fibonacci` at argument `n`:
either the base-case guard `n <= 1` is taken, or both recursive calls
have finite call trees themselves.  `FibCallTreeFinite n` holds exactly
when the C recursion starting at `n` terminates. -/
inductive FibCallTreeFinite : Int → Prop where
  | base {n : Int} (h : n ≤ 1) : FibCallTreeFinite n
  | step {n : Int} (h : ¬ n ≤ 1)
      (h1 : FibCallTreeFinite (n - 1))
      (h2 : FibCallTreeFinite (n - 2)) : FibCallTreeFinite n

theorem wrap32_eq_self {x : Int} (h1 : -2147483648 ≤ x)
    (h2 : x < 2147483648) : wrap32 x = x := by
  unfold wrap32
  omega

theorem wrap32_add_left (x y : Int) :
    wrap32 (wrap32 x + y) = wrap32 (x + y) := by
  unfold wrap32
  omega

theorem wrap32_add_right (x y : Int) :
    wrap32 (x + wrap32 y) = wrap32 (x + y) := by
  unfold wrap32
  omega

theorem wrap32_neg_wrap32 (x : Int) : wrap32 (-(wrap32 x)) = wrap32 (-x) := by
  unfold wrap32
  omega

theorem fibonacci_of_le_one {n : Int} (h : n ≤ 1) : fibonacci n = n := by
  rw [fibonacci.eq_def, if_pos h]

theorem fibonacci_of_ge_two {n : Int} (h : 2 ≤ n) :
    fibonacci n = wrap32 (fibonacci (n - 1) + fibonacci (n - 2)) := by
  rw [fibonacci.eq_def, if_neg (by omega)]

theorem fib0 : fibonacci 0 = 0 := fibonacci_of_le_one (by norm_num)

theorem fib1 : fibonacci 1 = 1 := fibonacci_of_le_one (by norm_num)

theorem fib2 : fibonacci 2 = 1 := by
  rw [fibonacci_of_ge_two (by norm_num)]
  norm_num [fib1, fib0, wrap32]

theorem fib3 : fibonacci 3 = 2 := by
  rw [fibonacci_of_ge_two (by norm_num)]
  norm_num [fib2, fib1, wrap32]

theorem fib4 : fibonacci 4 = 3 := by
  rw [fibonacci_of_ge_two (by norm_num)]
  norm_num [fib3, fib2, wrap32]

theorem fib5 : fibonacci 5 = 5 := by
  rw [fibonacci_of_ge_two (by norm_num)]
  norm_num [fib4, fib3, wrap32]

theorem fib6 : fibonacci 6 = 8 := by
  rw [fibonacci_of_ge_two (by norm_num)]
  norm_num [fib5, fib4, wrap32]

theorem fib7 : fibonacci 7 = 13 := by
  rw [fibonacci_of_ge_two (by norm_num)]
  norm_num [fib6, fib5, wrap32]

theorem fib8 : fibonacci 8 = 21 := by
  rw [fibonacci_of_ge_two (by norm_num)]
  norm_num [fib7, fib6, wrap32]

theorem fib9 : fibonacci 9 = 34 := by
  rw [fibonacci_of_ge_two (by norm_num)]
  norm_num [fib8, fib7, wrap32]

theorem fib10 : fibonacci 10 = 55 := by
  rw [fibonacci_of_ge_two (by norm_num)]
  norm_num [fib9, fib8, wrap32]

theorem string_join_snoc (l : List String) (s : String) :
    String.join (l ++ [s]) = String.join l ++ s := by
  simp [String.join, List.foldl_append]

theorem print_sequence_zero : print_sequence 0 = "" := rfl

theorem print_sequence_snoc {count : Int} (h : 0 ≤ count) :
    print_sequence (count + 1) =
      print_sequence count ++ (toString (fibonacci count) ++ " ") := by
  unfold print_sequence
  have ht : (count + 1).toNat = count.toNat + 1 := by omega
  rw [ht, List.range_succ, List.map_append, List.map_cons, List.map_nil,
    string_join_snoc, Int.toNat_of_nonneg h]

theorem print_sequence_ten : print_sequence 10 = "0 1 1 2 3 5 8 13 21 34 " := by
  have hr : List.range (10 : Int).toNat = [0, 1, 2, 3, 4, 5, 6, 7, 8, 9] := rfl
  unfold print_sequence
  rw [hr]
  simp only [List.map_cons, List.map_nil, Nat.cast_zero, Nat.cast_one,
    Nat.cast_ofNat]
  rw [fib0, fib1, fib2, fib3, fib4, fib5, fib6, fib7, fib8, fib9]
  rfl

/-- C1: `fibonacci` computes the Fibonacci sequence by naive double
recursion: `fibonacci 0 = 0`, `fibonacci 1 = 1`, `fibonacci 5 = 5`,
`fibonacci 10 = 55`, and for every `n ≥ 2`, `fibonacci n` is the sum of
`fibonacci (n-1)` and `fibonacci (n-2)` computed by the platform's
(wrapping) `int` addition. -/
theorem c1_fibonacci_values_and_recurrence :
    fibonacci 0 = 0 ∧ fibonacci 1 = 1 ∧ fibonacci 5 = 5 ∧
      fibonacci 10 = 55 ∧
      ∀ n : Int, 2 ≤ n →
        fibonacci n = wrap32 (fibonacci (n - 1) + fibonacci (n - 2)) :=
  ⟨fib0, fib1, fib5, fib10, fun _ h => fibonacci_of_ge_two h⟩

/-- Witness for C1: the recurrence instantiated at `n = 2`. -/
theorem c1_fibonacci_values_and_recurrence_witness :
    fibonacci 2 = wrap32 (fibonacci 1 + fibonacci 0) :=
  c1_fibonacci_values_and_recurrence.2.2.2.2 2 (by norm_num)

/-- C2: for every integer `n < 0`, `fibonacci n` returns `n` itself,
because the base-case guard `n ≤ 1` is taken. -/
theorem c2_fibonacci_negative (n : Int) (h : n < 0) : fibonacci n = n :=
  fibonacci_of_le_one (by omega)

/-- Witness for C2: `fibonacci (-7) = -7`. -/
theorem c2_fibonacci_negative_witness : fibonacci (-7) = -7 :=
  c2_fibonacci_negative (-7) (by norm_num)

/-- C3: for every `count ≥ 0`, `print_sequence count` prints
`fibonacci 0` through `fibonacci (count-1)`, each integer followed by a
single space and nothing else (no newline): the output at `count = 0`
is empty, each increment of `count` appends exactly the decimal digits
of the next Fibonacci number plus one space, and in particular
`print_sequence 10` is exactly `"0 1 1 2 3 5 8 13 21 34 "` with a
trailing space and no newline. -/
theorem c3_print_sequence_output :
    print_sequence 0 = "" ∧
      (∀ count : Int, 0 ≤ count →
        print_sequence (count + 1) =
          print_sequence count ++ (toString (fibonacci count) ++ " ")) ∧
      print_sequence 10 = "0 1 1 2 3 5 8 13 21 34 " :=
  ⟨print_sequence_zero, fun _ h => print_sequence_snoc h, print_sequence_ten⟩

/-- Witness for C3: the appending step instantiated at `count = 2`. -/
theorem c3_print_sequence_output_witness :
    print_sequence 3 = print_sequence 2 ++ (toString (fibonacci 2) ++ " ") :=
  c3_print_sequence_output.2.1 2 (by norm_num)

/-- C4: for every integer `n`, `is_even n` returns 1 if `n` is a
multiple of 2 and 0 otherwise, including negative `n`. -/
theorem c4_is_even_parity (n : Int) :
    is_even n = if (2 : Int) ∣ n then 1 else 0 := by
  unfold is_even
  by_cases h : (2 : Int) ∣ n
  · rw [if_pos h, if_pos (Int.tmod_eq_zero_of_dvd h)]
  · rw [if_neg h, if_neg (fun hz => h (Int.dvd_of_tmod_eq_zero hz))]

/-- C5: `average a b` is `(a + b) / 2.0` with the quotient taken in
(exact) floating-point division, not integer truncation: whenever the
`int` sum does not overflow the result is the exact rational
`(a + b) / 2`, and in particular `average 4 6 = 5` and
`average 5 3 = 4` exactly. -/
theorem c5_average_exact :
    average 4 6 = 5 ∧ average 5 3 = 4 ∧
      ∀ a b : Int, -2147483648 ≤ a + b → a + b < 2147483648 →
        average a b = (((a : ℚ) + (b : ℚ)) / 2 : ℚ) := by
  refine ⟨by norm_num [average, wrap32], by norm_num [average, wrap32], ?_⟩
  intro a b h1 h2
  unfold average
  rw [wrap32_eq_self h1 h2]
  push_cast
  ring

/-- Witness for C5: the no-overflow case instantiated at `a = 1`,
`b = 2`, giving the untruncated quotient `3/2`. -/
theorem c5_average_exact_witness : average 1 2 = (((1 : ℚ) + (2 : ℚ)) / 2 : ℚ) :=
  c5_average_exact.2.2 1 2 (by norm_num) (by norm_num)

/-- C6: for all integers `a`, `b`, `subtract a b` equals the negation
of `subtract b a` under the platform's wrapping integer semantics; the
concrete conjunct exhibits the wrap-around case where `b - a` is the
minimum representable integer, whose platform negation is itself. -/
theorem c6_subtract_antisymmetric :
    (∀ a b : Int, subtract a b = wrap32 (-(subtract b a))) ∧
      subtract 0 (-2147483648) = -2147483648 := by
  constructor
  · intro a b
    unfold subtract wrap32
    omega
  · norm_num [subtract, wrap32]

/-- C7: for all integers `a`, `b`, `add a b = add b a`: the platform's
wrapping addition is commutative. -/
theorem c7_add_commutative (a b : Int) : add a b = add b a := by
  unfold add
  rw [Int.add_comm]

/-- C8: for all integers `a`, `b`, `square_sum a b` equals
`a * a + b * b` under the platform's wrapping integer semantics, and in
particular `square_sum 3 4 = 25`. -/
theorem c8_square_sum_correct :
    (∀ a b : Int, square_sum a b = wrap32 (a * a + b * b)) ∧
      square_sum 3 4 = 25 := by
  constructor
  · intro a b
    unfold square_sum wrap32
    omega
  · norm_num [square_sum, wrap32]

/-- C9: `fibonacci` terminates for every integer input `n`, including
every negative `n`: the call tree rooted at any `n` is finite, because
the guard `n ≤ 1` stops all `n < 2` and each recursive call strictly
decreases the argument. -/
theorem c9_fibonacci_terminates (n : Int) : FibCallTreeFinite n :=
  if h : n ≤ 1 then FibCallTreeFinite.base h
  else
    FibCallTreeFinite.step h (c9_fibonacci_terminates (n - 1))
      (c9_fibonacci_terminates (n - 2))
termination_by n.toNat
decreasing_by
· omega
· omega

/-- C10: for every `count ≤ 0` (including negative `count`), the loop
body of `print_sequence` never executes and the output is the empty
string. -/
theorem c10_print_sequence_nonpos (count : Int) (h : count ≤ 0) :
    print_sequence count = "" := by
  unfold print_sequence
  rw [Int.toNat_of_nonpos h]
  rfl

/-- Witness for C10: `print_sequence (-5)` prints nothing. -/
theorem c10_print_sequence_nonpos_witness : print_sequence (-5) = "" :=
  c10_print_sequence_nonpos (-5) (by norm_num)

end RepoInspector
